import Mathlib

/-!
# Verification model of `KeyRwLock` (Defelo/key-rwlock, src/lib.rs)

A shallow embedding of the per-key async reader-writer lock.  The Rust
code keeps a `Mutex<HashMap<K, Arc<RwLock<()>>>>` (the index) plus an
`AtomicUsize` access counter.  We model a sequential execution:

* a per-key lock object (`LockState`) records the number of outstanding
  read guards and whether a write guard is outstanding — exactly the
  observable state of `tokio::sync::RwLock<()>` between ops;
* the arena `objs : List LockState` models the heap of `Arc<RwLock<()>>`
  objects: an object stays alive (keeps its slot) even after its index
  entry is removed, mirroring `Arc` shared ownership; a guard names its
  object by arena index;
* `locks : List (K × Nat)` models the `HashMap` as an association list
  with (in every reachable state) pairwise distinct keys;
* `accesses : Nat` models the atomic access counter.

Each public operation of the Rust code is translated step for step:
take the index mutex, `fetch_add` the counter and sweep when the
*pre-increment* value is `≡ 0 (mod 1000)` (that is what
`fetch_add(1) % 1000 == 0` tests), `entry(key).or_default()`, release
the mutex, then attempt the per-key acquisition.  The blocking `read` /
`write` return `Option Guard`: `none` means the caller suspends
(bookkeeping already done) — there is no error outcome, in contrast to
`try_read` / `try_write` which return `Except TryLockError Guard`.
-/

/-- Acquisition mode carried by a guard. -/
inductive Mode
  | read
  | write
deriving DecidableEq, Repr

/-- A guard (`OwnedRwLockReadGuard` / `OwnedRwLockWriteGuard`): it owns a
reference to the lock object at arena index `id`. -/
structure Guard where
  id : Nat
  mode : Mode
deriving DecidableEq, Repr

/-- Observable state of one `tokio::sync::RwLock<()>` between operations:
how many read guards are outstanding and whether a write guard is. -/
structure LockState where
  readers : Nat
  writer : Bool
deriving DecidableEq, Repr

/-- A freshly constructed, unlocked `RwLock` (`Arc::default()`). -/
def LockState.new : LockState := ⟨0, false⟩

/-- `RwLock::try_read` on a lock with no queued waiters: succeeds (adding
one reader) iff no write guard is outstanding. -/
def LockState.tryRead (l : LockState) : Option LockState :=
  if l.writer then none else some { l with readers := l.readers + 1 }

/-- `RwLock::try_write`: succeeds iff no reader or writer holds the lock. -/
def LockState.tryWrite (l : LockState) : Option LockState :=
  if l.writer || l.readers != 0 then none else some { l with writer := true }

/-- The error type of the `try_*` operations (`tokio::sync::TryLockError`);
its single kind is "the lock is busy". -/
inductive TryLockError
  | lockBusy
deriving DecidableEq, Repr

/-- The state of a `KeyRwLock<K>`: the index `locks` (model of the
`HashMap<K, Arc<RwLock<()>>>`), the arena `objs` of lock objects that
have ever been allocated (slot `i` is the object created `i`-th; objects
survive index removal, as `Arc`s do), and the access counter. -/
structure KeyRwLock (K : Type) where
  locks : List (K × Nat)
  objs : List LockState
  accesses : Nat
deriving DecidableEq, Repr

variable {K : Type} [DecidableEq K]

/-- `KeyRwLock::new` / `Default`: empty index, counter 0. -/
def KeyRwLock.new : KeyRwLock K := ⟨[], [], 0⟩

/-- Arena dereference.  Index entries and guards only ever hold indices of
allocated slots, so the default is never reached from the operations. -/
def getObj (objs : List LockState) (id : Nat) : LockState :=
  objs.getD id LockState.new

/-- `HashMap::get`-style lookup in the association-list index. -/
def lookupKey (locks : List (K × Nat)) (k : K) : Option Nat :=
  match locks with
  | [] => none
  | (k2, id) :: rest => if k = k2 then some id else lookupKey rest k

/-- `KeyRwLock::clean_up`: first pass marks every key whose lock object
answers a non-blocking exclusive probe (`try_write().is_ok()`), second
pass removes the marked keys from the index. -/
def KeyRwLock.cleanUp (objs : List LockState) (locks : List (K × Nat)) :
    List (K × Nat) :=
  let toRemove :=
    (locks.filter (fun p => (LockState.tryWrite (getObj objs p.2)).isSome)).map
      Prod.fst
  locks.filter (fun p => !(decide (p.1 ∈ toRemove)))

/-- The sweep trigger tested by every acquisition:
`self.accesses.fetch_add(1, Relaxed) % 1000 == 0`, i.e. the
*pre-increment* counter value is divisible by 1000. -/
def KeyRwLock.acquireSweeps (st : KeyRwLock K) : Bool :=
  st.accesses % 1000 == 0

/-- The counter bump done by every acquisition: `fetch_add(1)` plus the
conditional sweep while still holding the index mutex. -/
def KeyRwLock.bump (st : KeyRwLock K) : KeyRwLock K :=
  { st with
    locks := if st.acquireSweeps then KeyRwLock.cleanUp st.objs st.locks
             else st.locks
    accesses := st.accesses + 1 }

/-- `locks.entry(key).or_default()`: look the key up, allocating a fresh
unlocked lock object for it when absent; returns the state together with
the arena index of the key's lock object. -/
def KeyRwLock.getOrCreate (st : KeyRwLock K) (k : K) : KeyRwLock K × Nat :=
  match lookupKey st.locks k with
  | some id => (st, id)
  | none =>
      ({ st with
          locks := st.locks ++ [(k, st.objs.length)]
          objs := st.objs ++ [LockState.new] },
        st.objs.length)

/-- The bookkeeping prefix shared by all four acquisition operations:
take the index mutex, bump the counter (sweeping when due), look up or
create the entry, release the mutex. -/
def KeyRwLock.acquireStep (st : KeyRwLock K) (k : K) : KeyRwLock K × Nat :=
  (st.bump).getOrCreate k

/-- `KeyRwLock::try_read`: bookkeeping, then `try_read_owned`. -/
def KeyRwLock.tryRead (st : KeyRwLock K) (k : K) :
    Except TryLockError Guard × KeyRwLock K :=
  let s := st.acquireStep k
  match LockState.tryRead (getObj s.1.objs s.2) with
  | some l => (.ok ⟨s.2, Mode.read⟩, { s.1 with objs := s.1.objs.set s.2 l })
  | none => (.error .lockBusy, s.1)

/-- `KeyRwLock::try_write`: bookkeeping, then `try_write_owned`. -/
def KeyRwLock.tryWrite (st : KeyRwLock K) (k : K) :
    Except TryLockError Guard × KeyRwLock K :=
  let s := st.acquireStep k
  match LockState.tryWrite (getObj s.1.objs s.2) with
  | some l => (.ok ⟨s.2, Mode.write⟩, { s.1 with objs := s.1.objs.set s.2 l })
  | none => (.error .lockBusy, s.1)

/-- `KeyRwLock::read`: bookkeeping, then `read_owned().await`.  `none`
means the caller suspends on the per-key lock (a writer is outstanding);
it is not an error and the bookkeeping effects remain. -/
def KeyRwLock.read (st : KeyRwLock K) (k : K) :
    Option Guard × KeyRwLock K :=
  let s := st.acquireStep k
  match LockState.tryRead (getObj s.1.objs s.2) with
  | some l => (some ⟨s.2, Mode.read⟩, { s.1 with objs := s.1.objs.set s.2 l })
  | none => (none, s.1)

/-- `KeyRwLock::write`: bookkeeping, then `write_owned().await`; `none`
means the caller suspends (the lock is contended). -/
def KeyRwLock.write (st : KeyRwLock K) (k : K) :
    Option Guard × KeyRwLock K :=
  let s := st.acquireStep k
  match LockState.tryWrite (getObj s.1.objs s.2) with
  | some l => (some ⟨s.2, Mode.write⟩, { s.1 with objs := s.1.objs.set s.2 l })
  | none => (none, s.1)

/-- Dropping a guard: relinquish the held access on the guard's lock
object.  Touches neither the index nor the access counter. -/
def KeyRwLock.dropGuard (st : KeyRwLock K) (g : Guard) : KeyRwLock K :=
  let l := getObj st.objs g.id
  match g.mode with
  | .read => { st with objs := st.objs.set g.id { l with readers := l.readers - 1 } }
  | .write => { st with objs := st.objs.set g.id { l with writer := false } }

/-- `KeyRwLock::clean`: take the index mutex and run the sweep. -/
def KeyRwLock.clean (st : KeyRwLock K) : KeyRwLock K :=
  { st with locks := KeyRwLock.cleanUp st.objs st.locks }

/-- The lock state a new acquisition of `k` observes: the indexed
object's state, or a fresh unlocked lock when `k` is unindexed. -/
def KeyRwLock.lockOf (st : KeyRwLock K) (k : K) : LockState :=
  match lookupKey st.locks k with
  | some id => getObj st.objs id
  | none => LockState.new

/-- "No reader or writer currently holds `k`'s lock" (the per-key lock
answers an exclusive probe). -/
def KeyRwLock.noHolder (st : KeyRwLock K) (k : K) : Bool :=
  (LockState.tryWrite (st.lockOf k)).isSome

/-- "Shared access to `k` is immediately available" (no outstanding write
guard on `k`'s lock). -/
def KeyRwLock.readAvailable (st : KeyRwLock K) (k : K) : Bool :=
  !(st.lockOf k).writer

/-- The `HashMap` invariant of the index model: pairwise distinct keys. -/
def KeyRwLock.keysNodup (st : KeyRwLock K) : Prop :=
  (st.locks.map Prod.fst).Nodup

instance (st : KeyRwLock K) : Decidable st.keysNodup :=
  inferInstanceAs (Decidable (st.locks.map Prod.fst).Nodup)

/-! ## Helper lemmas about the index model -/

theorem lookupKey_eq_none_of_not_mem {locks : List (K × Nat)} {k : K}
    (h : k ∉ locks.map Prod.fst) : lookupKey locks k = none := by
  induction locks with
  | nil => rfl
  | cons hd tl ih =>
      obtain ⟨k2, i2⟩ := hd
      simp only [List.map_cons, List.mem_cons, not_or] at h
      simp only [lookupKey, if_neg h.1]
      exact ih h.2

theorem lookupKey_filter_none {locks : List (K × Nat)} {k : K}
    (p : K × Nat → Bool) (h : lookupKey locks k = none) :
    lookupKey (locks.filter p) k = none := by
  induction locks with
  | nil => rfl
  | cons hd tl ih =>
      obtain ⟨k2, i2⟩ := hd
      by_cases hk : k = k2
      · simp only [lookupKey, if_pos hk] at h
        exact absurd h (by simp)
      · simp only [lookupKey, if_neg hk] at h
        rw [List.filter_cons]
        by_cases hp : p (k2, i2)
        · simp only [hp, if_pos, lookupKey, if_neg hk]
          exact ih h
        · simp only [hp]
          simpa using ih h

theorem lookupKey_filter_nodup {locks : List (K × Nat)} {k : K} {id : Nat}
    (hnd : (locks.map Prod.fst).Nodup) (h : lookupKey locks k = some id)
    (p : K × Nat → Bool) :
    lookupKey (locks.filter p) k = if p (k, id) then some id else none := by
  induction locks with
  | nil => exact absurd h (by simp [lookupKey])
  | cons hd tl ih =>
      obtain ⟨k2, i2⟩ := hd
      simp only [List.map_cons, List.nodup_cons] at hnd
      by_cases hk : k = k2
      · subst hk
        simp only [lookupKey, if_pos rfl] at h
        have hid : i2 = id := by simpa using h
        subst hid
        rw [List.filter_cons]
        by_cases hp : p (k, i2) = true
        · simp [hp, lookupKey]
        · have hnone : lookupKey (tl.filter p) k = none :=
            lookupKey_filter_none p (lookupKey_eq_none_of_not_mem hnd.1)
          simp [hp, hnone]
      · simp only [lookupKey, if_neg hk] at h
        rw [List.filter_cons]
        by_cases hp : p (k2, i2) = true
        · simpa [hp, lookupKey, if_neg hk] using ih hnd.2 h
        · simpa [hp] using ih hnd.2 h

theorem lookupKey_append_self {locks : List (K × Nat)} {k : K} (n : Nat)
    (h : lookupKey locks k = none) :
    lookupKey (locks ++ [(k, n)]) k = some n := by
  induction locks with
  | nil => simp [lookupKey]
  | cons hd tl ih =>
      obtain ⟨k2, i2⟩ := hd
      by_cases hk : k = k2
      · simp only [lookupKey, if_pos hk] at h
        exact absurd h (by simp)
      · simp only [lookupKey, if_neg hk] at h
        simpa [lookupKey, if_neg hk] using ih h

theorem lookupKey_append_ne {locks : List (K × Nat)} {j k : K} (n : Nat)
    (h : j ≠ k) : lookupKey (locks ++ [(k, n)]) j = lookupKey locks j := by
  induction locks with
  | nil => simp [lookupKey, if_neg h]
  | cons hd tl ih =>
      obtain ⟨k2, i2⟩ := hd
      by_cases hk : j = k2
      · simp [lookupKey, if_pos hk]
      · simpa [lookupKey, if_neg hk] using ih

theorem getObj_append (objs : List LockState) (l : LockState) :
    getObj (objs ++ [l]) objs.length = l := by
  induction objs with
  | nil => rfl
  | cons hd tl _ => simp [getObj, List.getD]

theorem getObj_set {objs : List LockState} {id : Nat} (l : LockState)
    (h : id < objs.length) : getObj (objs.set id l) id = l := by
  induction objs generalizing id with
  | nil => exact absurd h (by simp)
  | cons hd tl ih =>
      cases id with
      | zero => rfl
      | succ m =>
          simp only [List.length_cons, Nat.succ_lt_succ_iff] at h
          simpa [getObj, List.getD] using ih h

theorem unlocked_eq_new {l : LockState}
    (h : (LockState.tryWrite l).isSome = true) : l = LockState.new := by
  unfold LockState.tryWrite at h
  by_cases hc : (l.writer || l.readers != 0) = true
  · rw [if_pos hc] at h
    exact absurd h (by simp)
  · simp only [Bool.or_eq_true, bne_iff_ne, not_or, Decidable.not_not] at hc
    obtain ⟨hw, hr⟩ := hc
    cases l
    simp only [Bool.not_eq_true] at hw
    simp_all [LockState.new]

theorem cleanUp_eq_filter {objs : List LockState} {locks : List (K × Nat)}
    (hnd : (locks.map Prod.fst).Nodup) :
    KeyRwLock.cleanUp objs locks =
      locks.filter (fun p => !(LockState.tryWrite (getObj objs p.2)).isSome) := by
  have hdef : KeyRwLock.cleanUp objs locks =
      locks.filter (fun p => !(decide (p.1 ∈
        (locks.filter
          (fun q => (LockState.tryWrite (getObj objs q.2)).isSome)).map
          Prod.fst))) := rfl
  rw [hdef]
  apply List.filter_congr
  intro p hp
  have hiff : (p.1 ∈
      (locks.filter
        (fun q => (LockState.tryWrite (getObj objs q.2)).isSome)).map
        Prod.fst) ↔ (LockState.tryWrite (getObj objs p.2)).isSome = true := by
    constructor
    · intro hmem
      obtain ⟨q, hq, hq1⟩ := List.mem_map.mp hmem
      obtain ⟨hq2, hq3⟩ := List.mem_filter.mp hq
      obtain rfl : q = p := List.inj_on_of_nodup_map hnd hq2 hp hq1
      exact hq3
    · intro hu
      exact List.mem_map.mpr ⟨p, List.mem_filter.mpr ⟨hp, hu⟩, rfl⟩
  by_cases hu : (LockState.tryWrite (getObj objs p.2)).isSome = true
  · simp [hu, hiff.mpr hu]
  · have hnm := fun hmem => hu (hiff.mp hmem)
    simp only [Bool.not_eq_true] at hu
    show (!decide (p.1 ∈ _)) = _
    rw [decide_eq_false hnm, hu]

theorem lookupKey_cleanUp_none {objs : List LockState}
    {locks : List (K × Nat)} {k : K} (h : lookupKey locks k = none) :
    lookupKey (KeyRwLock.cleanUp objs locks) k = none := by
  unfold KeyRwLock.cleanUp
  exact lookupKey_filter_none _ h

theorem lookupKey_cleanUp_nodup {objs : List LockState}
    {locks : List (K × Nat)} {k : K} {id : Nat}
    (hnd : (locks.map Prod.fst).Nodup) (h : lookupKey locks k = some id) :
    lookupKey (KeyRwLock.cleanUp objs locks) k =
      if (LockState.tryWrite (getObj objs id)).isSome then none
      else some id := by
  rw [cleanUp_eq_filter hnd, lookupKey_filter_nodup hnd h]
  by_cases hu : (LockState.tryWrite (getObj objs id)).isSome = true <;>
    simp [hu]

/-! ## Lemmas about the shared acquisition bookkeeping -/

theorem bump_objs (st : KeyRwLock K) : (st.bump).objs = st.objs := rfl

theorem bump_accesses (st : KeyRwLock K) :
    (st.bump).accesses = st.accesses + 1 := rfl

theorem bump_lookup_none {st : KeyRwLock K} {k : K}
    (h : lookupKey st.locks k = none) :
    lookupKey (st.bump).locks k = none := by
  unfold KeyRwLock.bump
  by_cases hs : st.acquireSweeps = true <;> simp only [hs]
  · simpa using lookupKey_cleanUp_none h
  · simpa using h

theorem bump_lookup_some {st : KeyRwLock K} {k : K} {id : Nat}
    (hnd : st.keysNodup) (h : lookupKey st.locks k = some id) :
    lookupKey (st.bump).locks k =
      if st.acquireSweeps ∧ (LockState.tryWrite (getObj st.objs id)).isSome
      then none else some id := by
  have hlocks : (st.bump).locks =
      if st.acquireSweeps then KeyRwLock.cleanUp st.objs st.locks
      else st.locks := rfl
  rw [hlocks]
  by_cases hs : st.acquireSweeps = true
  · rw [if_pos hs, lookupKey_cleanUp_nodup hnd h]
    by_cases hu : (LockState.tryWrite (getObj st.objs id)).isSome = true
    · rw [if_pos hu, if_pos ⟨hs, hu⟩]
    · rw [if_neg hu, if_neg (by simp [hu])]
  · rw [if_neg hs, h, if_neg (by simp [hs])]

theorem acquireStep_accesses (st : KeyRwLock K) (k : K) :
    (st.acquireStep k).1.accesses = st.accesses + 1 := by
  unfold KeyRwLock.acquireStep KeyRwLock.getOrCreate
  cases h : lookupKey (st.bump).locks k <;> simp [h, bump_accesses]

theorem acquireStep_lookup_self (st : KeyRwLock K) (k : K) :
    lookupKey (st.acquireStep k).1.locks k = some (st.acquireStep k).2 := by
  unfold KeyRwLock.acquireStep KeyRwLock.getOrCreate
  cases h : lookupKey (st.bump).locks k with
  | some id => simp [h]
  | none => simpa [h] using lookupKey_append_self _ h

theorem acquireStep_lockOf (st : KeyRwLock K) (k : K) (hnd : st.keysNodup) :
    getObj (st.acquireStep k).1.objs (st.acquireStep k).2 = st.lockOf k := by
  unfold KeyRwLock.acquireStep KeyRwLock.getOrCreate KeyRwLock.lockOf
  cases h : lookupKey st.locks k with
  | none =>
      rw [bump_lookup_none h]
      simpa [bump_objs] using getObj_append st.objs LockState.new
  | some id =>
      rw [bump_lookup_some hnd h]
      by_cases hu : (LockState.tryWrite (getObj st.objs id)).isSome = true
      · by_cases hs : st.acquireSweeps = true
        · simp only [hs, hu, and_self, if_true]
          rw [unlocked_eq_new hu]
          simpa [bump_objs] using getObj_append st.objs LockState.new
        · simp [hs, bump_objs]
      · simp [hu, bump_objs]

theorem acquireStep_lookup_other {st : KeyRwLock K} {j : K} {id : Nat}
    (k : K) (hnd : st.keysNodup) (hjk : j ≠ k)
    (h : lookupKey st.locks j = some id)
    (hu : (LockState.tryWrite (getObj st.objs id)).isSome = true) :
    lookupKey (st.acquireStep k).1.locks j =
      if st.acquireSweeps then none else some id := by
  have hbump : lookupKey (st.bump).locks j =
      if st.acquireSweeps then none else some id := by
    unfold KeyRwLock.bump
    by_cases hs : st.acquireSweeps = true <;> simp only [hs]
    · have hcu : lookupKey (KeyRwLock.cleanUp st.objs st.locks) j =
          if (LockState.tryWrite (getObj st.objs id)).isSome then none
          else some id := lookupKey_cleanUp_nodup hnd h
      simpa [hs] using hcu.trans (by simp [hu])
    · simp only [Bool.false_eq_true] at hs
      simp [h, hs]
  unfold KeyRwLock.acquireStep KeyRwLock.getOrCreate
  cases hk : lookupKey (st.bump).locks k with
  | some i2 => simpa [hk] using hbump
  | none => simpa [hk, lookupKey_append_ne _ hjk] using hbump

/-! ## Operation-level outcome lemmas -/

/-- Whether a `try_*` call returned a guard (`Result::is_ok`). -/
def isGranted : Except TryLockError Guard → Bool
  | .ok _ => true
  | .error _ => false

theorem tryRead_fst (st : KeyRwLock K) (k : K) (hnd : st.keysNodup) :
    (st.tryRead k).1 =
      if (st.lockOf k).writer then Except.error TryLockError.lockBusy
      else Except.ok ⟨(st.acquireStep k).2, Mode.read⟩ := by
  simp only [KeyRwLock.tryRead]
  rw [acquireStep_lockOf st k hnd]
  unfold LockState.tryRead
  by_cases hw : (st.lockOf k).writer = true <;> simp [hw]

theorem tryWrite_fst (st : KeyRwLock K) (k : K) (hnd : st.keysNodup) :
    (st.tryWrite k).1 =
      if (LockState.tryWrite (st.lockOf k)).isSome
      then Except.ok ⟨(st.acquireStep k).2, Mode.write⟩
      else Except.error TryLockError.lockBusy := by
  simp only [KeyRwLock.tryWrite]
  rw [acquireStep_lockOf st k hnd]
  cases hm : LockState.tryWrite (st.lockOf k) <;> simp [hm]

theorem read_fst (st : KeyRwLock K) (k : K) (hnd : st.keysNodup) :
    (st.read k).1 =
      if (st.lockOf k).writer then none
      else some ⟨(st.acquireStep k).2, Mode.read⟩ := by
  simp only [KeyRwLock.read]
  rw [acquireStep_lockOf st k hnd]
  unfold LockState.tryRead
  by_cases hw : (st.lockOf k).writer = true <;> simp [hw]

theorem write_fst (st : KeyRwLock K) (k : K) (hnd : st.keysNodup) :
    (st.write k).1 =
      if (LockState.tryWrite (st.lockOf k)).isSome
      then some ⟨(st.acquireStep k).2, Mode.write⟩
      else none := by
  simp only [KeyRwLock.write]
  rw [acquireStep_lockOf st k hnd]
  cases hm : LockState.tryWrite (st.lockOf k) <;> simp [hm]

theorem tryRead_accesses (st : KeyRwLock K) (k : K) :
    ((st.tryRead k).2).accesses = st.accesses + 1 := by
  simp only [KeyRwLock.tryRead]
  cases hm : LockState.tryRead
      (getObj (st.acquireStep k).1.objs (st.acquireStep k).2) <;>
    simp [hm, acquireStep_accesses]

theorem tryWrite_accesses (st : KeyRwLock K) (k : K) :
    ((st.tryWrite k).2).accesses = st.accesses + 1 := by
  simp only [KeyRwLock.tryWrite]
  cases hm : LockState.tryWrite
      (getObj (st.acquireStep k).1.objs (st.acquireStep k).2) <;>
    simp [hm, acquireStep_accesses]

theorem read_accesses (st : KeyRwLock K) (k : K) :
    ((st.read k).2).accesses = st.accesses + 1 := by
  simp only [KeyRwLock.read]
  cases hm : LockState.tryRead
      (getObj (st.acquireStep k).1.objs (st.acquireStep k).2) <;>
    simp [hm, acquireStep_accesses]

theorem write_accesses (st : KeyRwLock K) (k : K) :
    ((st.write k).2).accesses = st.accesses + 1 := by
  simp only [KeyRwLock.write]
  cases hm : LockState.tryWrite
      (getObj (st.acquireStep k).1.objs (st.acquireStep k).2) <;>
    simp [hm, acquireStep_accesses]

theorem tryRead_locks (st : KeyRwLock K) (k : K) :
    ((st.tryRead k).2).locks = (st.acquireStep k).1.locks := by
  simp only [KeyRwLock.tryRead]
  cases hm : LockState.tryRead
      (getObj (st.acquireStep k).1.objs (st.acquireStep k).2) <;> simp [hm]

theorem tryWrite_locks (st : KeyRwLock K) (k : K) :
    ((st.tryWrite k).2).locks = (st.acquireStep k).1.locks := by
  simp only [KeyRwLock.tryWrite]
  cases hm : LockState.tryWrite
      (getObj (st.acquireStep k).1.objs (st.acquireStep k).2) <;> simp [hm]

theorem read_locks (st : KeyRwLock K) (k : K) :
    ((st.read k).2).locks = (st.acquireStep k).1.locks := by
  simp only [KeyRwLock.read]
  cases hm : LockState.tryRead
      (getObj (st.acquireStep k).1.objs (st.acquireStep k).2) <;> simp [hm]

theorem write_locks (st : KeyRwLock K) (k : K) :
    ((st.write k).2).locks = (st.acquireStep k).1.locks := by
  simp only [KeyRwLock.write]
  cases hm : LockState.tryWrite
      (getObj (st.acquireStep k).1.objs (st.acquireStep k).2) <;> simp [hm]

theorem clean_locks (st : KeyRwLock K) :
    (st.clean).locks = KeyRwLock.cleanUp st.objs st.locks := rfl

theorem clean_objs (st : KeyRwLock K) : (st.clean).objs = st.objs := rfl

theorem clean_accesses (st : KeyRwLock K) :
    (st.clean).accesses = st.accesses := rfl

theorem cleanUp_member_contended {objs : List LockState}
    {locks : List (K × Nat)} {p : K × Nat}
    (h : p ∈ KeyRwLock.cleanUp objs locks) :
    (LockState.tryWrite (getObj objs p.2)).isSome = false := by
  have hdef : KeyRwLock.cleanUp objs locks =
      locks.filter (fun q => !(decide (q.1 ∈
        (locks.filter
          (fun r => (LockState.tryWrite (getObj objs r.2)).isSome)).map
          Prod.fst))) := rfl
  rw [hdef] at h
  obtain ⟨hmem, hq⟩ := List.mem_filter.mp h
  by_contra hu
  simp only [Bool.not_eq_false] at hu
  have : p.1 ∈ (locks.filter
      (fun r => (LockState.tryWrite (getObj objs r.2)).isSome)).map Prod.fst :=
    List.mem_map.mpr ⟨p, List.mem_filter.mpr ⟨hmem, hu⟩, rfl⟩
  simp [this] at hq

theorem cleanUp_idem (objs : List LockState) (locks : List (K × Nat)) :
    KeyRwLock.cleanUp objs (KeyRwLock.cleanUp objs locks) =
      KeyRwLock.cleanUp objs locks := by
  have h2 : (KeyRwLock.cleanUp objs locks).filter
      (fun r => (LockState.tryWrite (getObj objs r.2)).isSome) = [] := by
    rw [List.filter_eq_nil_iff]
    intro p hp
    simp [cleanUp_member_contended hp]
  have hdef : KeyRwLock.cleanUp objs (KeyRwLock.cleanUp objs locks) =
      (KeyRwLock.cleanUp objs locks).filter (fun q => !(decide (q.1 ∈
        ((KeyRwLock.cleanUp objs locks).filter
          (fun r => (LockState.tryWrite (getObj objs r.2)).isSome)).map
          Prod.fst))) := rfl
  rw [hdef, h2]
  simp

/-! ## A concrete execution driving the access counter to 1000

From a fresh table (`Nat` keys): call 1 is `read 0` whose guard is
dropped at once (so key `0` stays indexed but uncontended forever
after); calls 2..1000 are `tryRead 1`, whose guards are kept (key `1`
stays contended).  This pins down which call runs the automatic sweep. -/

def c4start : KeyRwLock Nat :=
  (((KeyRwLock.new).read 0).2).dropGuard
    (((KeyRwLock.new).read 0).1.getD ⟨0, Mode.read⟩)

def c4step (st : KeyRwLock Nat) : KeyRwLock Nat := (st.tryRead 1).2

def c4after (n : Nat) : KeyRwLock Nat := Nat.repeat c4step n c4start

theorem c4after_val : ∀ n, n ≤ 998 →
    c4after (n + 1) =
      ⟨[(0, 0), (1, 1)], [⟨0, false⟩, ⟨n + 1, false⟩], n + 2⟩ := by
  intro n hn
  induction n with
  | zero => decide
  | succ m ih =>
      have hm : m ≤ 998 := Nat.le_trans (Nat.le_succ m) hn
      have hmlt : m + 2 < 1000 := by omega
      have hprev := ih hm
      show c4step (c4after (m + 1)) = _
      rw [hprev]
      have h1 : (m + 2) % 1000 = m + 2 := Nat.mod_eq_of_lt hmlt
      have h2 : ((m + 2) % 1000 == 0) = false := by
        rw [h1]
        simp
      simp [c4step, KeyRwLock.tryRead, KeyRwLock.acquireStep, KeyRwLock.bump,
        KeyRwLock.getOrCreate, KeyRwLock.acquireSweeps, lookupKey, getObj,
        List.getD, LockState.tryRead, h2, List.set,
        List.getElem_cons_succ, List.getElem_cons_zero]
      have h3 : [LockState.mk 0 false, LockState.mk (m + 1) false][1] =
          LockState.mk (m + 1) false := rfl
      rw [h3]
      simp

/-- A request for an unindexed key allocates a fresh unlocked lock object
and is granted shared access on it (first-access behaviour). -/
theorem read_fresh (st : KeyRwLock K) (k : K)
    (h : lookupKey st.locks k = none) :
    (st.read k).1 = some ⟨st.objs.length, Mode.read⟩ ∧
    lookupKey ((st.read k).2).locks k = some st.objs.length ∧
    getObj ((st.read k).2).objs st.objs.length = ⟨1, false⟩ := by
  have h1 : lookupKey (st.bump).locks k = none := bump_lookup_none h
  have hstep : st.acquireStep k =
      ({ st.bump with
          locks := (st.bump).locks ++ [(k, st.objs.length)]
          objs := st.objs ++ [LockState.new] }, st.objs.length) := by
    unfold KeyRwLock.acquireStep KeyRwLock.getOrCreate
    rw [h1]
    rfl
  have hobj : getObj (st.objs ++ [LockState.new]) st.objs.length =
      LockState.new := getObj_append st.objs LockState.new
  simp only [KeyRwLock.read, hstep, hobj]
  refine ⟨rfl, ?_, ?_⟩
  · exact lookupKey_append_self _ h1
  · exact getObj_set _ (by simp)

/-! ## Scenario B of the spec (test `test_clean_up`)

Acquire write on `"foo_write"`, write on `"bar_write"`, read on
`"foo_read"`, read on `"bar_read"`, drop the `"foo_read"` and
`"bar_write"` guards, then `clean()`. -/

def sB1 : Option Guard × KeyRwLock String := (KeyRwLock.new).write "foo_write"
def sB2 : Option Guard × KeyRwLock String := sB1.2.write "bar_write"
def sB3 : Option Guard × KeyRwLock String := sB2.2.read "foo_read"
def sB4 : Option Guard × KeyRwLock String := sB3.2.read "bar_read"
def sB5 : KeyRwLock String := sB4.2.dropGuard (sB3.1.getD ⟨0, Mode.read⟩)
def sB6 : KeyRwLock String := sB5.dropGuard (sB2.1.getD ⟨0, Mode.write⟩)
def sB7 : KeyRwLock String := sB6.clean

/-! ## Concrete states used by the witnesses -/

/-- A table where key `"a"` is indexed and its lock is write-held. -/
def stWriterHeld : KeyRwLock String := ⟨[("a", 0)], [⟨0, true⟩], 7⟩

/-- A table where key `"a"` is indexed and its lock has two readers. -/
def stReadersHeld : KeyRwLock String := ⟨[("a", 0)], [⟨2, false⟩], 7⟩

/-- A table where key `"a"` is indexed and its lock is uncontended. -/
def stUncontended : KeyRwLock String := ⟨[("a", 0)], [⟨0, false⟩], 7⟩

/-- A table with the counter at 1000 (a sweep is due on the next call):
`"a"` is indexed uncontended, `"b"` is indexed with one reader. -/
def stSweepDue : KeyRwLock String :=
  ⟨[("a", 0), ("b", 1)], [⟨0, false⟩, ⟨1, false⟩], 1000⟩

/-! ## The claims -/

/-- C1: for every key `k`, while a write guard on `k` is held (its lock
object's writer flag is set), `try_read(k)` and `try_write(k)` both fail
with `LockBusy`; and `try_write(k)` succeeds only if no reader or writer
currently holds `k`'s lock. -/
theorem c1_write_guard_blocks_try_ops (st : KeyRwLock K) (k : K)
    (hnd : st.keysNodup) :
    (∀ id, lookupKey st.locks k = some id →
      (getObj st.objs id).writer = true →
      (st.tryRead k).1 = .error .lockBusy ∧
      (st.tryWrite k).1 = .error .lockBusy) ∧
    (isGranted (st.tryWrite k).1 = true → st.noHolder k = true) := by
  constructor
  · intro id hl hw
    have hlk : st.lockOf k = getObj st.objs id := by
      unfold KeyRwLock.lockOf
      rw [hl]
    constructor
    · rw [tryRead_fst st k hnd, hlk, if_pos hw]
    · rw [tryWrite_fst st k hnd]
      have hs : (LockState.tryWrite (st.lockOf k)).isSome = false := by
        rw [hlk]
        unfold LockState.tryWrite
        simp [hw]
      rw [hs]
      simp
  · intro hok
    by_contra hnh
    simp only [Bool.not_eq_true] at hnh
    unfold KeyRwLock.noHolder at hnh
    rw [tryWrite_fst st k hnd, hnh] at hok
    simp [isGranted] at hok

/-- Witness for C1 at `stWriterHeld` and key `"a"`. -/
theorem c1_witness :
    ((stWriterHeld.tryRead "a").1 = .error .lockBusy ∧
     (stWriterHeld.tryWrite "a").1 = .error .lockBusy) ∧
    (isGranted (stWriterHeld.tryWrite "a").1 = true →
      stWriterHeld.noHolder "a" = true) :=
  ⟨(c1_write_guard_blocks_try_ops stWriterHeld "a" (by decide)).1 0
      (by decide) (by decide),
   (c1_write_guard_blocks_try_ops stWriterHeld "a" (by decide)).2⟩

/-- C2: for every key `k`, while one or more read guards on `k` are held
and no write guard is held, `try_read(k)` succeeds with a read guard and
`try_write(k)` fails with `LockBusy`. -/
theorem c2_readers_allow_read_block_write (st : KeyRwLock K) (k : K)
    (id : Nat) (hnd : st.keysNodup) (hl : lookupKey st.locks k = some id)
    (hw : (getObj st.objs id).writer = false)
    (hr : (getObj st.objs id).readers ≠ 0) :
    (st.tryRead k).1 = .ok ⟨(st.acquireStep k).2, Mode.read⟩ ∧
    (st.tryWrite k).1 = .error .lockBusy := by
  have hlk : st.lockOf k = getObj st.objs id := by
    unfold KeyRwLock.lockOf
    rw [hl]
  constructor
  · rw [tryRead_fst st k hnd, hlk, if_neg (by simp [hw])]
  · rw [tryWrite_fst st k hnd]
    have hs : (LockState.tryWrite (st.lockOf k)).isSome = false := by
      rw [hlk]
      unfold LockState.tryWrite
      simp [hr]
    rw [hs]
    simp

/-- Witness for C2 at `stReadersHeld` and key `"a"`. -/
theorem c2_witness :
    (stReadersHeld.tryRead "a").1 =
      .ok ⟨(stReadersHeld.acquireStep "a").2, Mode.read⟩ ∧
    (stReadersHeld.tryWrite "a").1 = .error .lockBusy :=
  c2_readers_allow_read_block_write stReadersHeld "a" 0 (by decide)
    (by decide) (by decide) (by decide)

/-- C3: `clean()` removes from the index exactly the entries whose lock
object is completely uncontended (answers an exclusive probe): an entry
survives iff it was there and its lock is still held somehow; `clean`
touches neither the lock objects nor the access counter. -/
theorem c3_clean_removes_exactly_uncontended (st : KeyRwLock K)
    (hnd : st.keysNodup) (p : K × Nat) :
    (p ∈ (st.clean).locks ↔
      p ∈ st.locks ∧
      (LockState.tryWrite (getObj st.objs p.2)).isSome = false) ∧
    (st.clean).objs = st.objs ∧ (st.clean).accesses = st.accesses := by
  refine ⟨?_, rfl, rfl⟩
  rw [clean_locks, cleanUp_eq_filter hnd, List.mem_filter]
  constructor
  · rintro ⟨h1, h2⟩
    exact ⟨h1, by simpa using h2⟩
  · rintro ⟨h1, h2⟩
    exact ⟨h1, by simp [h2]⟩

/-- Witness for C3 at `stWriterHeld` (the held entry survives). -/
theorem c3_witness :
    (("a", 0) ∈ (stWriterHeld.clean).locks ↔
      ("a", 0) ∈ stWriterHeld.locks ∧
      (LockState.tryWrite (getObj stWriterHeld.objs 0)).isSome = false) ∧
    (stWriterHeld.clean).objs = stWriterHeld.objs ∧
    (stWriterHeld.clean).accesses = stWriterHeld.accesses :=
  c3_clean_removes_exactly_uncontended stWriterHeld (by decide) ("a", 0)

/-- C4 (counterexample): the claim "the sweep runs exactly when the
post-increment count mod 1000 is zero; from a fresh table the first
automatic sweep occurs on the 1000th acquisition call" is false.  In the
concrete execution `c4after` (fresh table; call 1 = `read 0` whose guard
is dropped at once; calls 2..1000 = `tryRead 1` keeping the guards),
after exactly 1000 cumulative acquisition calls the post-increment count
is 1000, yet the entry for key `0` — uncontended ever since call 1 — is
still in the index, so no sweep ran on the 1000th call; the 1001st call
(pre-increment count 1000) then does sweep it out.  The trigger tests the
pre-increment counter value, so sweeps run on calls 1, 1001, 2001, …. -/
theorem c4_counterexample :
    (c4after 999).accesses = 1000 ∧
    lookupKey (c4after 999).locks 0 = some 0 ∧
    (LockState.tryWrite (getObj (c4after 999).objs 0)).isSome = true ∧
    lookupKey (((c4after 999).tryRead 2).2).locks 0 = none := by
  have h : c4after 999 =
      ⟨[(0, 0), (1, 1)], [⟨0, false⟩, ⟨999, false⟩], 1000⟩ := by
    have h0 := c4after_val 998 (by omega)
    norm_num at h0
    exact h0
  rw [h]
  decide

/-- C4 (amended): each of the four acquisition operations increments the
access counter by exactly one, and runs the automatic sweep exactly when
the PRE-increment counter value modulo 1000 equals zero (equivalently,
the post-increment count is ≡ 1 mod 1000): an uncontended entry for an
unrelated key is removed by the call iff `st.accesses % 1000 = 0`.
Starting from a fresh table the first automatic sweep therefore runs on
the 1st acquisition call (on an empty index) and the first observable
sweep on the 1001st, each before that call's lock entry is fetched. -/
theorem c4_sweep_on_pre_increment (st : KeyRwLock K) (k j : K) (id : Nat)
    (hnd : st.keysNodup) (hjk : j ≠ k)
    (hl : lookupKey st.locks j = some id)
    (hu : (LockState.tryWrite (getObj st.objs id)).isSome = true) :
    (lookupKey ((st.read k).2).locks j = none ↔ st.accesses % 1000 = 0) ∧
    (lookupKey ((st.write k).2).locks j = none ↔ st.accesses % 1000 = 0) ∧
    (lookupKey ((st.tryRead k).2).locks j = none ↔
      st.accesses % 1000 = 0) ∧
    (lookupKey ((st.tryWrite k).2).locks j = none ↔
      st.accesses % 1000 = 0) ∧
    ((st.read k).2.accesses = st.accesses + 1) ∧
    ((st.write k).2.accesses = st.accesses + 1) ∧
    ((st.tryRead k).2.accesses = st.accesses + 1) ∧
    ((st.tryWrite k).2.accesses = st.accesses + 1) := by
  have hother := acquireStep_lookup_other k hnd hjk hl hu
  have hiff : lookupKey (st.acquireStep k).1.locks j = none ↔
      st.accesses % 1000 = 0 := by
    rw [hother]
    by_cases hs : st.acquireSweeps = true
    · rw [if_pos hs]
      unfold KeyRwLock.acquireSweeps at hs
      simp only [beq_iff_eq] at hs
      simp [hs]
    · rw [if_neg hs]
      unfold KeyRwLock.acquireSweeps at hs
      simp only [beq_iff_eq] at hs
      simp [hs]
  exact ⟨by rw [read_locks]; exact hiff,
    by rw [write_locks]; exact hiff,
    by rw [tryRead_locks]; exact hiff,
    by rw [tryWrite_locks]; exact hiff,
    read_accesses st k, write_accesses st k,
    tryRead_accesses st k, tryWrite_accesses st k⟩

/-- Witness for C4's amended statement at `stSweepDue` (counter 1000, so
the next call sweeps the uncontended `"a"` entry). -/
theorem c4_witness :
    (lookupKey ((stSweepDue.read "b").2).locks "a" = none ↔
      stSweepDue.accesses % 1000 = 0) ∧
    (lookupKey ((stSweepDue.write "b").2).locks "a" = none ↔
      stSweepDue.accesses % 1000 = 0) ∧
    (lookupKey ((stSweepDue.tryRead "b").2).locks "a" = none ↔
      stSweepDue.accesses % 1000 = 0) ∧
    (lookupKey ((stSweepDue.tryWrite "b").2).locks "a" = none ↔
      stSweepDue.accesses % 1000 = 0) ∧
    ((stSweepDue.read "b").2.accesses = stSweepDue.accesses + 1) ∧
    ((stSweepDue.write "b").2.accesses = stSweepDue.accesses + 1) ∧
    ((stSweepDue.tryRead "b").2.accesses = stSweepDue.accesses + 1) ∧
    ((stSweepDue.tryWrite "b").2.accesses = stSweepDue.accesses + 1) :=
  c4_sweep_on_pre_increment stSweepDue "b" "a" 0 (by decide) (by decide)
    (by decide) (by decide)

/-- C5: Scenario B — after the four acquisitions the index has size 4;
after dropping the `"foo_read"` and `"bar_write"` guards and calling
`clean()` it has size 2 and contains exactly `"foo_write"` and
`"bar_read"`. -/
theorem c5_scenario_b :
    sB4.2.locks.length = 4 ∧
    sB7.locks.length = 2 ∧
    sB7.locks.map Prod.fst = ["foo_write", "bar_read"] := by
  decide

/-- C6: `clean()` is idempotent — with no intervening operations a second
`clean()` leaves the whole table (in particular the index) exactly as the
first left it. -/
theorem c6_clean_idempotent (st : KeyRwLock K) :
    (st.clean).clean = st.clean := by
  unfold KeyRwLock.clean
  simp [cleanUp_idem]

/-- C7: once every guard for `k` is released (its lock object answers the
exclusive probe), a sweep removes `k` from the index; a subsequent
request for `k` is granted on a freshly allocated lock object (arena slot
`st.objs.length`, unused before), whose state after the grant is exactly
that of a first access (one reader, no writer), and the access re-creates
the index entry for `k`. -/
theorem c7_sweep_then_fresh (st : KeyRwLock K) (k : K) (id : Nat)
    (hnd : st.keysNodup) (hl : lookupKey st.locks k = some id)
    (hu : (LockState.tryWrite (getObj st.objs id)).isSome = true) :
    lookupKey (st.clean).locks k = none ∧
    ((st.clean).read k).1 = some ⟨st.objs.length, Mode.read⟩ ∧
    lookupKey (((st.clean).read k).2).locks k = some st.objs.length ∧
    getObj (((st.clean).read k).2).objs st.objs.length = ⟨1, false⟩ := by
  have hnone : lookupKey (st.clean).locks k = none := by
    rw [clean_locks, lookupKey_cleanUp_nodup hnd hl]
    simp [hu]
  have hf := read_fresh (st.clean) k hnone
  exact ⟨hnone, hf.1, hf.2.1, hf.2.2⟩

/-- Witness for C7 at `stUncontended` and key `"a"`. -/
theorem c7_witness :
    lookupKey (stUncontended.clean).locks "a" = none ∧
    ((stUncontended.clean).read "a").1 =
      some ⟨stUncontended.objs.length, Mode.read⟩ ∧
    lookupKey (((stUncontended.clean).read "a").2).locks "a" =
      some stUncontended.objs.length ∧
    getObj (((stUncontended.clean).read "a").2).objs
      stUncontended.objs.length = ⟨1, false⟩ :=
  c7_sweep_then_fresh stUncontended "a" 0 (by decide) (by decide)
    (by decide)

/-- C8: every call to `read`, `write`, `try_read` or `try_write` —
whether or not a try variant succeeds — increments the access counter by
exactly one; `clean()` and guard drops leave it unchanged; and the
counter value never influences whether a lock is granted or denied. -/
theorem c8_counter_increment_and_unused (st : KeyRwLock K) (k : K)
    (g : Guard) (n : Nat) (hnd : st.keysNodup) :
    ((st.read k).2.accesses = st.accesses + 1) ∧
    ((st.write k).2.accesses = st.accesses + 1) ∧
    ((st.tryRead k).2.accesses = st.accesses + 1) ∧
    ((st.tryWrite k).2.accesses = st.accesses + 1) ∧
    ((st.clean).accesses = st.accesses) ∧
    ((st.dropGuard g).accesses = st.accesses) ∧
    (isGranted (({ st with accesses := n }).tryRead k).1 =
      isGranted (st.tryRead k).1) ∧
    (isGranted (({ st with accesses := n }).tryWrite k).1 =
      isGranted (st.tryWrite k).1) ∧
    ((({ st with accesses := n }).read k).1.isSome =
      (st.read k).1.isSome) ∧
    ((({ st with accesses := n }).write k).1.isSome =
      (st.write k).1.isSome) := by
  have hnd' : ({ st with accesses := n } : KeyRwLock K).keysNodup := hnd
  have hdrop : (st.dropGuard g).accesses = st.accesses := by
    obtain ⟨i, m⟩ := g
    cases m <;> rfl
  have hlk : ({ st with accesses := n } : KeyRwLock K).lockOf k =
      st.lockOf k := rfl
  refine ⟨read_accesses st k, write_accesses st k, tryRead_accesses st k,
    tryWrite_accesses st k, rfl, hdrop, ?_, ?_, ?_, ?_⟩
  · rw [tryRead_fst _ k hnd', tryRead_fst st k hnd, hlk]
    by_cases hw : (st.lockOf k).writer = true <;> simp [hw, isGranted]
  · rw [tryWrite_fst _ k hnd', tryWrite_fst st k hnd, hlk]
    by_cases hh : (LockState.tryWrite (st.lockOf k)).isSome = true <;>
      simp [hh, isGranted]
  · rw [read_fst _ k hnd', read_fst st k hnd, hlk]
    by_cases hw : (st.lockOf k).writer = true <;> simp [hw]
  · rw [write_fst _ k hnd', write_fst st k hnd, hlk]
    by_cases hh : (LockState.tryWrite (st.lockOf k)).isSome = true <;>
      simp [hh]

/-- Witness for C8 at `stUncontended`, key `"a"`, counter changed to 123. -/
theorem c8_witness :
    ((stUncontended.read "a").2.accesses = stUncontended.accesses + 1) ∧
    ((stUncontended.write "a").2.accesses = stUncontended.accesses + 1) ∧
    ((stUncontended.tryRead "a").2.accesses =
      stUncontended.accesses + 1) ∧
    ((stUncontended.tryWrite "a").2.accesses =
      stUncontended.accesses + 1) ∧
    ((stUncontended.clean).accesses = stUncontended.accesses) ∧
    ((stUncontended.dropGuard ⟨0, Mode.read⟩).accesses =
      stUncontended.accesses) ∧
    (isGranted (({ stUncontended with accesses := 123 }).tryRead "a").1 =
      isGranted (stUncontended.tryRead "a").1) ∧
    (isGranted (({ stUncontended with accesses := 123 }).tryWrite "a").1 =
      isGranted (stUncontended.tryWrite "a").1) ∧
    ((({ stUncontended with accesses := 123 }).read "a").1.isSome =
      (stUncontended.read "a").1.isSome) ∧
    ((({ stUncontended with accesses := 123 }).write "a").1.isSome =
      (stUncontended.write "a").1.isSome) :=
  c8_counter_increment_and_unused stUncontended "a" ⟨0, Mode.read⟩ 123
    (by decide)

/-- C9: `read` and `write` have no error outcome: expressed over the
model, a blocking call either returns a guard or suspends, and it
suspends exactly when the requested access is not immediately available
(`read`: a writer holds the key's lock; `write`: any holder exists).
`LockBusy` values arise only from `try_read` / `try_write`, whose result
type is the only one carrying `TryLockError`. -/
theorem c9_blocking_never_fails (st : KeyRwLock K) (k : K)
    (hnd : st.keysNodup) :
    ((st.read k).1.isSome = st.readAvailable k) ∧
    ((st.write k).1.isSome = st.noHolder k) := by
  constructor
  · rw [read_fst st k hnd]
    unfold KeyRwLock.readAvailable
    by_cases hw : (st.lockOf k).writer = true <;> simp [hw]
  · rw [write_fst st k hnd]
    unfold KeyRwLock.noHolder
    by_cases hh : (LockState.tryWrite (st.lockOf k)).isSome = true <;>
      simp [hh]

/-- Witness for C9 at `stWriterHeld` and key `"a"`. -/
theorem c9_witness :
    ((stWriterHeld.read "a").1.isSome = stWriterHeld.readAvailable "a") ∧
    ((stWriterHeld.write "a").1.isSome = stWriterHeld.noHolder "a") :=
  c9_blocking_never_fails stWriterHeld "a" (by decide)

/-- C10: a `try_read(k)` or `try_write(k)` call that fails with
`LockBusy` is not state-neutral: the key's entry was looked up or created
before the acquisition attempt, so the index still contains an entry for
`k` afterwards. -/
theorem c10_failed_try_leaves_entry (st : KeyRwLock K) (k : K)
    (e e2 : TryLockError) :
    ((st.tryRead k).1 = .error e →
      (lookupKey ((st.tryRead k).2).locks k).isSome = true) ∧
    ((st.tryWrite k).1 = .error e2 →
      (lookupKey ((st.tryWrite k).2).locks k).isSome = true) := by
  constructor <;> intro _
  · rw [tryRead_locks, acquireStep_lookup_self]
    rfl
  · rw [tryWrite_locks, acquireStep_lookup_self]
    rfl

/-- Witness for C10 at `stWriterHeld` and key `"a"` (both tries fail
there with `LockBusy`). -/
theorem c10_witness :
    (lookupKey ((stWriterHeld.tryRead "a").2).locks "a").isSome = true ∧
    (lookupKey ((stWriterHeld.tryWrite "a").2).locks "a").isSome = true :=
  ⟨(c10_failed_try_leaves_entry stWriterHeld "a" .lockBusy .lockBusy).1
      (by rfl),
   (c10_failed_try_leaves_entry stWriterHeld "a" .lockBusy .lockBusy).2
      (by rfl)⟩
